import Mathlib

/-!
Shallow embedding of the routing and health subsystem of the sol-rpc-proxy
repository (Rust): `src/state.rs` (`AppState::select_backend`),
`src/handlers.rs` (`extract_rpc_method`, `proxy`), `src/config.rs`
(configuration shape), and the `HealthState` hysteresis rule.

Strings are modelled with Lean `String` (ASCII byte positions become
character positions), `HashMap` lookups become functions into `Option`,
the random draw `rng.gen_range(0..W)` becomes an explicit parameter
`r : Nat`, and the upstream HTTP client becomes a function from the
outbound URI to an abstract outcome (response / transport error / timeout).
-/

/-- `Backend` from `src/config.rs`: label, url, weight. -/
structure Backend where
  label : String
  url : String
  weight : Nat
deriving Repr, DecidableEq

/-- The per-backend health record (fields as exposed by
`src/handlers.rs::health_endpoint` and described in the spec's data model). -/
structure HealthStatus where
  healthy : Bool
  consecutive_failures : Nat
  consecutive_successes : Nat
  last_check_time : Option Nat
  last_error : Option String
deriving Repr, DecidableEq

/-- The routing-relevant fields of `AppState` from `src/state.rs`.
`method_routes` and `label_to_url` are `HashMap<String,String>` lookups,
`health` is `HealthState::get_status`. -/
structure AppState where
  backends : List Backend
  api_keys : List String
  method_routes : String → Option String
  label_to_url : String → Option String
  health : String → Option HealthStatus
  proxy_timeout_secs : Nat

/-- The health predicate used by the filter in `select_backend`
(`src/state.rs` lines 48-53): `get_status(..).map(|s| s.healthy).unwrap_or(true)`. -/
def healthyView (health : String → Option HealthStatus) (b : Backend) : Bool :=
  ((health b.label).map (fun s => s.healthy)).getD true

/-- The `healthy_backends` vector of `src/state.rs` lines 45-54. -/
def healthy_backends (st : AppState) : List Backend :=
  st.backends.filter (fun b => healthyView st.health b)

/-- `healthy_total_weight` of `src/state.rs` line 61. -/
def totalWeight (H : List Backend) : Nat :=
  (H.map (fun b => b.weight)).sum

/-- The subtractive walk of `src/state.rs` lines 67-72: subtract each
weight from the draw until it is below the current backend's weight. -/
def weightedPick : List Backend → Nat → Option Backend
  | [], _ => none
  | b :: rest, r => if r < b.weight then some b else weightedPick rest (r - b.weight)

/-- The weighted-random path of `select_backend` (`src/state.rs` lines 44-78):
filter to the healthy subset, return `none` if it is empty, otherwise run the
subtractive walk with draw `r`, falling back to the first healthy backend if
the walk falls off the end. -/
def weightedSelect (st : AppState) (r : Nat) : Option (String × String) :=
  let H := healthy_backends st
  if H.isEmpty then none
  else
    match weightedPick H r with
    | some b => some (b.label, b.url)
    | none => H.head?.map (fun b => (b.label, b.url))

/-- The method-override path of `select_backend` (`src/state.rs` lines 25-42):
returns `some (label, url)` exactly when a route exists, the label has a URL,
a health record exists, and the record is healthy; every other sub-case falls
through (returns `none` here). -/
def methodOverride (st : AppState) (rpc_method : Option String) : Option (String × String) :=
  match rpc_method with
  | none => none
  | some m =>
    match st.method_routes m with
    | none => none
    | some label =>
      match st.label_to_url label with
      | none => none
      | some url =>
        match st.health label with
        | none => none
        | some status => if status.healthy then some (label, url) else none

/-- `AppState::select_backend` from `src/state.rs`, with the random draw made
an explicit parameter `r`. -/
def select_backend (st : AppState) (rpc_method : Option String) (r : Nat) :
    Option (String × String) :=
  match methodOverride st rpc_method with
  | some sel => some sel
  | none => weightedSelect st r

/-- Result of reading the request body in `extract_rpc_method`
(`axum::body::to_bytes` with the 10 MiB cap): either the bytes, or failure
(over-cap or read error). -/
inductive BodyRead where
  | ok (bytes : List Nat)
  | failed

/-- `extract_rpc_method` from `src/handlers.rs` lines 31-54.  The serde-json
step (`parse the bytes, take `obj["method"]` when it is a string`) is
abstracted as `jsonMethod : List Nat → Option String`.  Returns the body
bytes passed downstream together with the attached method tag. -/
def extract_rpc_method (jsonMethod : List Nat → Option String) :
    BodyRead → List Nat × Option String
  | .failed => ([], none)
  | .ok bytes =>
    match jsonMethod bytes with
    | some m => (bytes, some m)
    | none => (bytes, none)

/-- First index at which `needle` occurs as a contiguous sublist of the
haystack (Rust `str::find` on the pattern `"?api-key="`). -/
def findSubstrPos (needle : List Char) : List Char → Option Nat
  | [] => if needle.isPrefixOf ([] : List Char) then some 0 else none
  | c :: rest =>
    if needle.isPrefixOf (c :: rest) then some 0
    else (findSubstrPos needle rest).map (fun i => i + 1)

/-- Boolean substring test built on `findSubstrPos`. -/
def containsSub (needle hay : String) : Bool :=
  (findSubstrPos needle.toList hay.toList).isSome

/-- The api-key strip of `src/handlers.rs` lines 130-135: truncate the
path-and-query at the first occurrence of the literal `"?api-key="`. -/
def stripApiKey (p : String) : String :=
  match findSubstrPos ("?api-key=".toList) p.toList with
  | some pos => String.mk (p.toList.take pos)
  | none => p

/-- Rust `str::trim_end_matches('/')`: drop every trailing slash. -/
def trimTrailingSlashes (s : String) : String :=
  String.mk ((s.toList.reverse.dropWhile (fun c => c = '/')).reverse)

/-- Rust `str::ends_with` on strings (list-level, so it computes). -/
def strEndsWith (s suffix : String) : Bool :=
  suffix.toList.reverse.isPrefixOf s.toList.reverse

/-- Rust `str::starts_with` on strings (list-level, so it computes). -/
def strStartsWith (s head : String) : Bool :=
  head.toList.isPrefixOf s.toList

/-- The outbound-URI construction of `src/handlers.rs` lines 137-146. -/
def buildUri (backend_url cleaned : String) : String :=
  if cleaned = "/" then trimTrailingSlashes backend_url
  else if strEndsWith backend_url "/" && strStartsWith cleaned "/" then
    backend_url ++ String.mk (cleaned.toList.drop 1)
  else backend_url ++ cleaned

/-- Outcome of the upstream call in `proxy` (`tokio::time::timeout` around
`client.request`): a response, a transport error, or a timeout. -/
inductive UpstreamOutcome where
  | response (status : Nat) (body : String)
  | transportError (err : String)
  | timedOut
deriving Repr, DecidableEq

/-- The response the `proxy` handler produces, one constructor per `return`
site in `src/handlers.rs::proxy`. -/
inductive ProxyResponse where
  | unauthorized
  | noHealthy
  | passthrough (status : Nat) (body : String)
  | badGateway (err : String)
  | gatewayTimeout (secs : Nat)
deriving Repr, DecidableEq

/-- HTTP status code of each `proxy` response, as in `src/handlers.rs`. -/
def ProxyResponse.statusCode : ProxyResponse → Nat
  | .unauthorized => 401
  | .noHealthy => 503
  | .passthrough s _ => s
  | .badGateway _ => 502
  | .gatewayTimeout _ => 504

/-- Exact body of each `proxy` response, as in `src/handlers.rs` (for a
passthrough, the upstream body is returned unchanged). -/
def ProxyResponse.bodyText : ProxyResponse → String
  | .unauthorized => "Unauthorized"
  | .noHealthy => "No healthy backends available"
  | .passthrough _ b => b
  | .badGateway e => "Proxy error: " ++ e
  | .gatewayTimeout n => "Upstream request timed out after " ++ toString n ++ "s"

/-- What a run of the `proxy` handler produced: the response, the dispatcher
selection it recorded (if it got that far), and the outbound URI it sent
upstream (if it forwarded). -/
structure ProxyResult where
  response : ProxyResponse
  selected : Option (String × String)
  sentUpstream : Option String
deriving Repr, DecidableEq

/-- The `proxy` handler of `src/handlers.rs` lines 90-189: auth check,
dispatch, api-key strip, URI rewrite, forward with timeout.  `api_key` is
the deserialized `api-key` query parameter, `rpc_method` the tag attached
by `extract_rpc_method`, `path_and_query` the inbound path-and-query
(`none` becomes `"/"`), `r` the random draw, and `upstream` the abstract
HTTP client keyed by outbound URI.  Header rewriting carries no routing
state and is not modelled. -/
def proxy (st : AppState) (api_key : Option String) (rpc_method : Option String)
    (path_and_query : Option String) (r : Nat)
    (upstream : String → UpstreamOutcome) : ProxyResult :=
  match api_key with
  | none => ⟨.unauthorized, none, none⟩
  | some key =>
    if st.api_keys.contains key then
      match select_backend st rpc_method r with
      | none => ⟨.noHealthy, none, none⟩
      | some (label, url) =>
        let p := path_and_query.getD "/"
        let cleaned := stripApiKey p
        let uri := buildUri url cleaned
        match upstream uri with
        | .response s b => ⟨.passthrough s b, some (label, url), some uri⟩
        | .transportError e => ⟨.badGateway e, some (label, url), some uri⟩
        | .timedOut => ⟨.gatewayTimeout st.proxy_timeout_secs, some (label, url), some uri⟩
    else ⟨.unauthorized, none, none⟩

/-- Probe outcome fed to the health hysteresis rule. -/
inductive ProbeOutcome where
  | success
  | failure (err : String)

/-- Modelled from the spec: `src/state.rs` imports `crate::health::HealthState`
but `src/health.rs` is not present under `src/`, so the hysteresis update
`apply_probe` is taken from spec §4.A word for word.  `F` and `S` are the
consecutive-failure and consecutive-success thresholds, `now` the probe
completion time. -/
def apply_probe (F S now : Nat) (hr : HealthStatus) : ProbeOutcome → HealthStatus
  | .success =>
    let hr1 : HealthStatus :=
      { hr with consecutive_failures := 0,
                consecutive_successes := hr.consecutive_successes + 1,
                last_error := none, last_check_time := some now }
    if hr1.healthy = false ∧ S ≤ hr1.consecutive_successes then
      { hr1 with healthy := true }
    else hr1
  | .failure err =>
    let hr1 : HealthStatus :=
      { hr with consecutive_successes := 0,
                consecutive_failures := hr.consecutive_failures + 1,
                last_error := some err, last_check_time := some now }
    if hr1.healthy = true ∧ F ≤ hr1.consecutive_failures then
      { hr1 with healthy := false }
    else hr1

/-- `n` identical probe outcomes applied in sequence through `apply_probe`. -/
def iterProbe (F S : Nat) (hr : HealthStatus) (o : ProbeOutcome) : Nat → HealthStatus
  | 0 => hr
  | n + 1 => apply_probe F S n (iterProbe F S hr o n) o

/-- Sum of the weights of the first `i` backends of `H` (the amount
subtracted from the draw before the walk reaches index `i`). -/
def prefixWeight (H : List Backend) (i : Nat) : Nat :=
  totalWeight (H.take i)

/-- A two-backend configuration used to instantiate the theorems on concrete
inputs: backend `a` healthy, backend `b` unhealthy, api key `"k"`, method
route `"getBlock" → "b"`. -/
def sampleState : AppState :=
  { backends := [⟨"a", "http://a.test", 2⟩, ⟨"b", "http://b.test", 3⟩]
    api_keys := ["k"]
    method_routes := fun m => if m = "getBlock" then some "b" else none
    label_to_url := fun l =>
      if l = "a" then some "http://a.test"
      else if l = "b" then some "http://b.test" else none
    health := fun l =>
      if l = "a" then some ⟨true, 0, 1, some 5, none⟩
      else if l = "b" then some ⟨false, 3, 0, some 5, some "timeout"⟩ else none
    proxy_timeout_secs := 30 }

/-- Like `sampleState` but the health store has no record for backend `b`
(the pre-first-probe situation). -/
def sampleStateMissing : AppState :=
  { backends := [⟨"a", "http://a.test", 2⟩, ⟨"b", "http://b.test", 3⟩]
    api_keys := ["k"]
    method_routes := fun m => if m = "getBlock" then some "b" else none
    label_to_url := fun l =>
      if l = "a" then some "http://a.test"
      else if l = "b" then some "http://b.test" else none
    health := fun l => if l = "a" then some ⟨true, 0, 1, some 5, none⟩ else none
    proxy_timeout_secs := 30 }

/-- Like `sampleState` but with every backend unhealthy. -/
def sampleStateAllDown : AppState :=
  { backends := [⟨"a", "http://a.test", 2⟩, ⟨"b", "http://b.test", 3⟩]
    api_keys := ["k"]
    method_routes := fun m => if m = "getBlock" then some "b" else none
    label_to_url := fun l =>
      if l = "a" then some "http://a.test"
      else if l = "b" then some "http://b.test" else none
    health := fun l =>
      if l = "a" then some ⟨false, 4, 0, some 9, some "status 500"⟩
      else if l = "b" then some ⟨false, 3, 0, some 9, some "timeout"⟩ else none
    proxy_timeout_secs := 30 }

/-! ## Helper lemmas -/

theorem weightedPick_mem {H : List Backend} {r : Nat} {b : Backend}
    (h : weightedPick H r = some b) : b ∈ H := by
  induction H generalizing r with
  | nil => simp [weightedPick] at h
  | cons hd tl ih =>
    rw [weightedPick] at h
    split at h
    · simp at h
      simp [h]
    · exact List.mem_cons_of_mem hd (ih h)

theorem mem_healthy_backends {st : AppState} {b : Backend} :
    b ∈ healthy_backends st ↔ b ∈ st.backends ∧ healthyView st.health b = true := by
  simp [healthy_backends, List.mem_filter]

theorem weightedSelect_mem {st : AppState} {r : Nat} {l u : String}
    (h : weightedSelect st r = some (l, u)) :
    ∃ b ∈ healthy_backends st, b.label = l ∧ b.url = u := by
  rw [weightedSelect] at h
  split at h
  · simp at h
  · split at h
    · rename_i b hb
      refine ⟨b, weightedPick_mem hb, ?_, ?_⟩ <;> simp_all
    · rename_i hnone
      rw [Option.map_eq_some'] at h
      obtain ⟨b, hb, hbe⟩ := h
      refine ⟨b, List.mem_of_mem_head? hb, ?_, ?_⟩ <;> simp_all

theorem iterProbe_failure_char (F S : Nat) (hF : 1 ≤ F) (hf : HealthStatus) (err : String)
    (hh : hf.healthy = true) (hc0 : hf.consecutive_failures = 0) (n : Nat) :
    (iterProbe F S hf (.failure err) n).consecutive_failures = n ∧
    (iterProbe F S hf (.failure err) n).healthy = decide (n < F) := by
  induction n with
  | zero =>
    refine ⟨hc0, ?_⟩
    rw [iterProbe, hh]
    symm
    simpa using hF
  | succ n ih =>
    obtain ⟨ihc, ihh⟩ := ih
    rw [iterProbe]
    simp only [apply_probe]
    rcases Nat.lt_or_ge (n + 1) F with hlt | hge
    · rw [if_neg]
      · refine ⟨by simp [ihc], by simp [ihh]; omega⟩
      · rintro ⟨-, hle⟩
        simp [ihc] at hle
        omega
    · by_cases hprev : n < F
      · rw [if_pos ⟨by simp [ihh, hprev], by simp [ihc]; omega⟩]
        refine ⟨by simp [ihc], by simp; omega⟩
      · rw [if_neg]
        · refine ⟨by simp [ihc], by simp [ihh]; omega⟩
        · rintro ⟨hhh, -⟩
          simp [ihh, hprev] at hhh

theorem iterProbe_success_char (F S : Nat) (hS : 1 ≤ S) (hu : HealthStatus)
    (hh : hu.healthy = false) (hc0 : hu.consecutive_successes = 0) (n : Nat) :
    (iterProbe F S hu .success n).consecutive_successes = n ∧
    (iterProbe F S hu .success n).healthy = decide (S ≤ n) := by
  induction n with
  | zero =>
    refine ⟨hc0, ?_⟩
    rw [iterProbe, hh]
    symm
    simp
    omega
  | succ n ih =>
    obtain ⟨ihc, ihh⟩ := ih
    rw [iterProbe]
    simp only [apply_probe]
    rcases Nat.lt_or_ge n S with hlt | hge
    · by_cases hnow : S ≤ n + 1
      · rw [if_pos ⟨by simp [ihh]; omega, by simp [ihc]; omega⟩]
        refine ⟨by simp [ihc], by simp; omega⟩
      · rw [if_neg]
        · refine ⟨by simp [ihc], by simp [ihh]; omega⟩
        · rintro ⟨-, hle⟩
          simp [ihc] at hle
          omega
    · rw [if_neg]
      · refine ⟨by simp [ihc], by simp [ihh]; omega⟩
      · rintro ⟨hhh, -⟩
        simp [ihh] at hhh
        omega

theorem methodOverride_eq_some {st : AppState} {m? : Option String} {L U : String}
    (h : methodOverride st m? = some (L, U)) :
    st.label_to_url L = some U ∧ ∃ s, st.health L = some s ∧ s.healthy = true := by
  rcases m? with - | m
  · simp [methodOverride] at h
  · rcases hr : st.method_routes m with - | label
    · simp [methodOverride, hr] at h
    · rcases hu : st.label_to_url label with - | url
      · simp [methodOverride, hr, hu] at h
      · rcases hh : st.health label with - | status
        · simp [methodOverride, hr, hu, hh] at h
        · by_cases hy : status.healthy = true
          · simp only [methodOverride, hr, hu, hh, hy, if_true] at h
            obtain ⟨hL, hU⟩ := Prod.mk.injEq .. ▸ Option.some.inj h
            subst hL; subst hU
            exact ⟨hu, status, hh, hy⟩
          · simp [methodOverride, hr, hu, hh, hy] at h

/-! ## Claim theorems -/

/-- C1: whenever `select_backend` returns `(L, U)`, the health store holds a
record for `L` that is healthy at the instant of selection, and `U` is
`label_to_url[L]`; an unhealthy backend is never returned.  The two
hypotheses state the configuration invariants established at startup:
`label_to_url` is built from the backend pool, and the health store has a
record for every pool label. -/
theorem select_backend_only_healthy (st : AppState) (m : Option String) (r : Nat)
    (L U : String)
    (hmap : ∀ b ∈ st.backends, st.label_to_url b.label = some b.url)
    (hrec : ∀ b ∈ st.backends, (st.health b.label).isSome = true)
    (hsel : select_backend st m r = some (L, U)) :
    (∃ s, st.health L = some s ∧ s.healthy = true) ∧ st.label_to_url L = some U := by
  rw [select_backend] at hsel
  split at hsel
  · rename_i sel hov
    rw [Option.some_inj] at hsel
    subst hsel
    obtain ⟨hu, s, hs, hy⟩ := methodOverride_eq_some hov
    exact ⟨⟨s, hs, hy⟩, hu⟩
  · obtain ⟨b, hbH, hbl, hbu⟩ := weightedSelect_mem hsel
    obtain ⟨hbmem, hview⟩ := mem_healthy_backends.mp hbH
    obtain ⟨s, hs⟩ := Option.isSome_iff_exists.mp (hrec b hbmem)
    subst hbl; subst hbu
    simp only [healthyView, hs, Option.map_some', Option.getD_some] at hview
    exact ⟨⟨s, hs, hview⟩, hmap b hbmem⟩

/-- Witness for C1 on `sampleState` with no method tag and draw 0: the
dispatcher returns backend `a`, which is healthy. -/
theorem select_backend_only_healthy_witness :
    (∃ s, sampleState.health "a" = some s ∧ s.healthy = true) ∧
    sampleState.label_to_url "a" = some "http://a.test" :=
  select_backend_only_healthy sampleState none 0 "a" "http://a.test"
    (by decide) (by decide) (by decide)

/-- C2: with a method route `m → L` whose label has a URL and a health
record: if the record is healthy the dispatcher returns `(L, label_to_url[L])`;
if it is unhealthy the dispatcher falls through to weighted selection over the
healthy subset and in particular never returns label `L`. -/
theorem method_override_routing (st : AppState) (m L U : String) (r : Nat)
    (s : HealthStatus)
    (hm : st.method_routes m = some L) (hu : st.label_to_url L = some U)
    (hs : st.health L = some s) :
    (s.healthy = true → select_backend st (some m) r = some (L, U)) ∧
    (s.healthy = false →
      select_backend st (some m) r = weightedSelect st r ∧
      ∀ V, select_backend st (some m) r ≠ some (L, V)) := by
  constructor
  · intro hy
    have hov : methodOverride st (some m) = some (L, U) := by
      simp [methodOverride, hm, hu, hs, hy]
    rw [select_backend, hov]
  · intro hy
    have hov : methodOverride st (some m) = none := by
      simp [methodOverride, hm, hu, hs, hy]
    have hws : select_backend st (some m) r = weightedSelect st r := by
      rw [select_backend, hov]
    refine ⟨hws, ?_⟩
    intro V hcontra
    rw [hws] at hcontra
    obtain ⟨b, hbH, hbl, -⟩ := weightedSelect_mem hcontra
    obtain ⟨-, hview⟩ := mem_healthy_backends.mp hbH
    simp [healthyView, hbl, hs, hy] at hview

/-- Witness for C2 on `sampleState`: method `getBlock` routes to the
unhealthy backend `b`, so selection falls through. -/
theorem method_override_routing_witness :
    (((⟨false, 3, 0, some 5, some "timeout"⟩ : HealthStatus).healthy = true →
      select_backend sampleState (some "getBlock") 0 = some ("b", "http://b.test")) ∧
    ((⟨false, 3, 0, some 5, some "timeout"⟩ : HealthStatus).healthy = false →
      select_backend sampleState (some "getBlock") 0 = weightedSelect sampleState 0 ∧
      ∀ V, select_backend sampleState (some "getBlock") 0 ≠ some ("b", V))) :=
  method_override_routing sampleState "getBlock" "b" "http://b.test" 0
    ⟨false, 3, 0, some 5, some "timeout"⟩ (by decide) (by decide) (by decide)

/-- C10: when the method route's label has a URL but no health record, the
override path is skipped entirely (selection equals the weighted path), while
on the weighted path a backend with a missing record counts as healthy. -/
theorem missing_record_skips_override (st : AppState) (m L U : String) (r : Nat)
    (hm : st.method_routes m = some L) (hu : st.label_to_url L = some U)
    (hs : st.health L = none) :
    select_backend st (some m) r = weightedSelect st r ∧
    ∀ b ∈ st.backends, st.health b.label = none → b ∈ healthy_backends st := by
  constructor
  · have hov : methodOverride st (some m) = none := by
      simp [methodOverride, hm, hu, hs]
    rw [select_backend, hov]
  · intro b hb hnone
    rw [mem_healthy_backends]
    exact ⟨hb, by simp [healthyView, hnone]⟩

/-- Witness for C10 on `sampleStateMissing`: route `getBlock → b` with no
record for `b`. -/
theorem missing_record_skips_override_witness :
    select_backend sampleStateMissing (some "getBlock") 7 =
      weightedSelect sampleStateMissing 7 ∧
    ∀ b ∈ sampleStateMissing.backends,
      sampleStateMissing.health b.label = none →
        b ∈ healthy_backends sampleStateMissing :=
  missing_record_skips_override sampleStateMissing "getBlock" "b" "http://b.test" 7
    (by decide) (by decide) (by decide)

/-- C4: starting from a canonical healthy record (failure streak 0), health
flips to unhealthy exactly at the `F`-th consecutive failure and not before;
starting from a canonical unhealthy record (success streak 0), health flips
to healthy exactly at the `S`-th consecutive success and not before; in
particular no transition happens mid-streak. -/
theorem hysteresis_thresholds (F S : Nat) (hF : 1 ≤ F) (hS : 1 ≤ S)
    (hf hu : HealthStatus) (err : String)
    (hfh : hf.healthy = true) (hf0 : hf.consecutive_failures = 0)
    (huh : hu.healthy = false) (hu0 : hu.consecutive_successes = 0) (n : Nat) :
    ((iterProbe F S hf (.failure err) n).healthy = false ↔ F ≤ n) ∧
    ((iterProbe F S hu .success n).healthy = true ↔ S ≤ n) := by
  obtain ⟨-, hfc⟩ := iterProbe_failure_char F S hF hf err hfh hf0 n
  obtain ⟨-, hsc⟩ := iterProbe_success_char F S hS hu huh hu0 n
  rw [hfc, hsc]
  constructor
  · simp
  · simp

/-- Witness for C4 with the default thresholds `F = 3`, `S = 2` after three
probes of each kind. -/
theorem hysteresis_thresholds_witness :
    ((iterProbe 3 2 ⟨true, 0, 0, none, none⟩ (.failure "e") 3).healthy = false ↔ 3 ≤ 3) ∧
    ((iterProbe 3 2 ⟨false, 0, 0, none, none⟩ .success 3).healthy = true ↔ 2 ≤ 3) :=
  hysteresis_thresholds 3 2 (by decide) (by decide) ⟨true, 0, 0, none, none⟩
    ⟨false, 0, 0, none, none⟩ "e" rfl rfl rfl rfl 3

/-- C5: for every body read successfully within the cap, the bytes the
middleware forwards downstream equal the bytes received, both when a method
tag is attached (the json extraction yields `some m`) and when it is not;
the attached tag is exactly the json extraction's result. -/
theorem extract_body_transparent (jsonMethod : List Nat → Option String)
    (bytes : List Nat) :
    (extract_rpc_method jsonMethod (.ok bytes)).1 = bytes ∧
    (extract_rpc_method jsonMethod (.ok bytes)).2 = jsonMethod bytes := by
  cases h : jsonMethod bytes <;> simp [extract_rpc_method, h]

theorem proxy_noHealthy_inv {st : AppState} {k m p : Option String}
    {r : Nat} {up : String → UpstreamOutcome}
    (h : (proxy st k m p r up).response = ProxyResponse.noHealthy) :
    select_backend st m r = none := by
  rcases k with - | key
  · simp [proxy] at h
  · by_cases hk : key ∈ st.api_keys
    · cases hsel : select_backend st m r with
      | none => rfl
      | some sel =>
        obtain ⟨l, u⟩ := sel
        cases hup : up (buildUri u (stripApiKey (p.getD "/"))) <;>
          simp [proxy, hk, hsel, hup] at h
    · simp [proxy, hk] at h

/-- C3: when the healthy subset is empty the dispatcher returns `none` and
the (authorized) forwarder answers with the 503 response whose exact body is
`"No healthy backends available"`; conversely, the forwarder produces that
response only when the dispatcher returned `none`.  The first hypothesis is
the startup invariant that `label_to_url` only maps pool labels. -/
theorem no_healthy_503 (st : AppState) (key : String) (m p : Option String) (r : Nat)
    (up : String → UpstreamOutcome)
    (hdom : ∀ L U, st.label_to_url L = some U → ∃ b ∈ st.backends, b.label = L)
    (hkey : st.api_keys.contains key = true)
    (hempty : healthy_backends st = []) :
    select_backend st m r = none ∧
    (proxy st (some key) m p r up).response = ProxyResponse.noHealthy ∧
    ProxyResponse.statusCode .noHealthy = 503 ∧
    ProxyResponse.bodyText .noHealthy = "No healthy backends available" ∧
    ∀ st2 k2 m2 p2 r2 up2,
      (proxy st2 k2 m2 p2 r2 up2).response = ProxyResponse.noHealthy →
        select_backend st2 m2 r2 = none := by
  have hselnone : select_backend st m r = none := by
    have hov : methodOverride st m = none := by
      cases hov : methodOverride st m with
      | none => rfl
      | some sel =>
        obtain ⟨L, U⟩ := sel
        obtain ⟨hu, s, hs, hy⟩ := methodOverride_eq_some hov
        obtain ⟨b, hb, hbl⟩ := hdom L U hu
        have hmem : b ∈ healthy_backends st := by
          rw [mem_healthy_backends]
          exact ⟨hb, by simp [healthyView, hbl, hs, hy]⟩
        rw [hempty] at hmem
        simp at hmem
    rw [select_backend, hov, weightedSelect]
    simp [hempty]
  have hkey2 : key ∈ st.api_keys := by simpa using hkey
  refine ⟨hselnone, by simp [proxy, hkey2, hselnone], rfl, rfl, ?_⟩
  intro st2 k2 m2 p2 r2 up2 h
  exact proxy_noHealthy_inv h

/-- Witness for C3 on `sampleStateAllDown` (both backends unhealthy). -/
theorem no_healthy_503_witness :
    select_backend sampleStateAllDown none 0 = none ∧
    (proxy sampleStateAllDown (some "k") none (some "/?api-key=k") 0
        (fun _ => .response 200 "ok")).response = ProxyResponse.noHealthy ∧
    ProxyResponse.statusCode .noHealthy = 503 ∧
    ProxyResponse.bodyText .noHealthy = "No healthy backends available" ∧
    ∀ st2 k2 m2 p2 r2 up2,
      (proxy st2 k2 m2 p2 r2 up2).response = ProxyResponse.noHealthy →
        select_backend st2 m2 r2 = none :=
  no_healthy_503 sampleStateAllDown "k" none (some "/?api-key=k") 0
    (fun _ => .response 200 "ok")
    (by
      intro L U hLU
      simp only [sampleStateAllDown] at hLU
      split at hLU
      · rename_i hL
        exact ⟨⟨"a", "http://a.test", 2⟩, by simp [sampleStateAllDown], by simp [hL]⟩
      · split at hLU
        · rename_i hL
          exact ⟨⟨"b", "http://b.test", 3⟩, by simp [sampleStateAllDown], by simp [hL]⟩
        · simp at hLU)
    (by decide) (by decide)

/-- C7: when the upstream call at the outbound URI times out, the forwarder
answers with the 504 response whose exact body is
`"Upstream request timed out after Ns"` for `N = proxy_timeout_secs`. -/
theorem upstream_timeout_504 (st : AppState) (key : String) (m p : Option String)
    (r : Nat) (up : String → UpstreamOutcome) (L U : String)
    (hkey : st.api_keys.contains key = true)
    (hsel : select_backend st m r = some (L, U))
    (hup : up (buildUri U (stripApiKey (p.getD "/"))) = .timedOut) :
    (proxy st (some key) m p r up).response = .gatewayTimeout st.proxy_timeout_secs ∧
    ProxyResponse.statusCode (.gatewayTimeout st.proxy_timeout_secs) = 504 ∧
    ProxyResponse.bodyText (.gatewayTimeout st.proxy_timeout_secs) =
      "Upstream request timed out after " ++ toString st.proxy_timeout_secs ++ "s" := by
  have hkey2 : key ∈ st.api_keys := by simpa using hkey
  refine ⟨?_, rfl, rfl⟩
  simp [proxy, hkey2, hsel, hup]

/-- Witness for C7 on `sampleState` with an always-timing-out upstream. -/
theorem upstream_timeout_504_witness :
    (proxy sampleState (some "k") none (some "/?api-key=k") 0
        (fun _ => .timedOut)).response = .gatewayTimeout sampleState.proxy_timeout_secs ∧
    ProxyResponse.statusCode (.gatewayTimeout sampleState.proxy_timeout_secs) = 504 ∧
    ProxyResponse.bodyText (.gatewayTimeout sampleState.proxy_timeout_secs) =
      "Upstream request timed out after " ++ toString sampleState.proxy_timeout_secs ++ "s" :=
  upstream_timeout_504 sampleState "k" none (some "/?api-key=k") 0 (fun _ => .timedOut)
    "a" "http://a.test" (by decide) (by decide) (by decide)

/-- C8: a request whose api-key is absent or not configured gets the 401
response with exact body `"Unauthorized"`, records no backend selection and
sends nothing upstream; conversely a request with a configured key is never
answered 401. -/
theorem auth_unauthorized (st : AppState) (key? : Option String) (m p : Option String)
    (r : Nat) (up : String → UpstreamOutcome)
    (hbad : ∀ k, key? = some k → st.api_keys.contains k = false) :
    (proxy st key? m p r up).response = .unauthorized ∧
    ProxyResponse.statusCode .unauthorized = 401 ∧
    ProxyResponse.bodyText .unauthorized = "Unauthorized" ∧
    (proxy st key? m p r up).selected = none ∧
    (proxy st key? m p r up).sentUpstream = none ∧
    ∀ st2 k m2 p2 r2 up2, st2.api_keys.contains k = true →
      (proxy st2 (some k) m2 p2 r2 up2).response ≠ ProxyResponse.unauthorized := by
  have hmain : proxy st key? m p r up = ⟨.unauthorized, none, none⟩ := by
    rcases key? with - | k
    · rfl
    · have hk : k ∉ st.api_keys := by simpa using hbad k rfl
      simp [proxy, hk]
  refine ⟨by rw [hmain], rfl, rfl, by rw [hmain], by rw [hmain], ?_⟩
  intro st2 k m2 p2 r2 up2 hk hcon
  have hk2 : k ∈ st2.api_keys := by simpa using hk
  rcases hsel : select_backend st2 m2 r2 with - | sel
  · simp [proxy, hk2, hsel] at hcon
  · obtain ⟨l, u⟩ := sel
    cases hup : up2 (buildUri u (stripApiKey (p2.getD "/"))) <;>
      simp [proxy, hk2, hsel, hup] at hcon

/-- Witness for C8 on `sampleState` with the unconfigured key `"bad"`. -/
theorem auth_unauthorized_witness :
    (proxy sampleState (some "bad") none (some "/?api-key=bad") 0
        (fun _ => .response 200 "ok")).response = .unauthorized ∧
    ProxyResponse.statusCode .unauthorized = 401 ∧
    ProxyResponse.bodyText .unauthorized = "Unauthorized" ∧
    (proxy sampleState (some "bad") none (some "/?api-key=bad") 0
        (fun _ => .response 200 "ok")).selected = none ∧
    (proxy sampleState (some "bad") none (some "/?api-key=bad") 0
        (fun _ => .response 200 "ok")).sentUpstream = none ∧
    ∀ st2 k m2 p2 r2 up2, st2.api_keys.contains k = true →
      (proxy st2 (some k) m2 p2 r2 up2).response ≠ ProxyResponse.unauthorized :=
  auth_unauthorized sampleState (some "bad") none (some "/?api-key=bad") 0
    (fun _ => .response 200 "ok")
    (by intro k hk; obtain rfl := Option.some.inj hk; decide)

theorem findSubstrPos_take_eq_none (needle : List Char) (hne : needle ≠ [])
    (hay : List Char) (pos : Nat) (h : findSubstrPos needle hay = some pos) :
    findSubstrPos needle (hay.take pos) = none := by
  induction hay generalizing pos with
  | nil =>
    rcases needle with - | ⟨c, cs⟩
    · exact absurd rfl hne
    · simp [findSubstrPos, List.isPrefixOf] at h
  | cons c rest ih =>
    rw [findSubstrPos] at h
    split at h
    · rw [Option.some_inj] at h
      subst h
      rcases needle with - | ⟨d, ds⟩
      · exact absurd rfl hne
      · simp [findSubstrPos, List.isPrefixOf]
    · rename_i hpre
      rw [Option.map_eq_some'] at h
      obtain ⟨q, hq, hpos⟩ := h
      subst hpos
      rw [List.take_succ_cons, findSubstrPos, if_neg, ih q hq]
      · simp
      · intro hcon
        apply hpre
        have h1 : needle <+: c :: rest.take q := by
          simpa [List.isPrefixOf_iff_prefix] using hcon
        have h2 : (c :: rest.take q) <+: (c :: rest) := by
          rw [List.cons_prefix_cons]
          exact ⟨rfl, List.take_prefix q rest⟩
        simpa [List.isPrefixOf_iff_prefix] using h1.trans h2

/-- C6 counterexample: the claim fails for an api-key that is not the first
query parameter.  With the inbound path-and-query
`"/x?foo=1&api-key=secret"` the literal `"?api-key="` does not occur, the
strip is a no-op, and the outbound URI sent upstream still contains the
client's `api-key` parameter. -/
theorem apikey_leak_counterexample :
    (proxy sampleState (some "k") none (some "/x?foo=1&api-key=secret") 0
        (fun _ => .response 200 "ok")).sentUpstream =
      some "http://a.test/x?foo=1&api-key=secret" ∧
    containsSub "api-key=secret" "http://a.test/x?foo=1&api-key=secret" = true := by
  constructor
  · decide
  · decide

/-- C6 amended: the outbound URI is the backend URL joined with the inbound
path-and-query truncated at the first occurrence of the literal substring
`"?api-key="`; the truncated part contains no `"?api-key="` occurrence (so an
api-key written literally that way — e.g. as the first query parameter — never
reaches the upstream), but an api-key in any other position or encoding is
not stripped and leaks. -/
theorem apikey_strip_amended (st : AppState) (key : String) (m p : Option String)
    (r : Nat) (up : String → UpstreamOutcome) (L U : String)
    (hkey : st.api_keys.contains key = true)
    (hsel : select_backend st m r = some (L, U)) :
    (proxy st (some key) m p r up).sentUpstream =
      some (buildUri U (stripApiKey (p.getD "/"))) ∧
    containsSub "?api-key=" (stripApiKey (p.getD "/")) = false := by
  have hkey2 : key ∈ st.api_keys := by simpa using hkey
  constructor
  · cases hup : up (buildUri U (stripApiKey (p.getD "/"))) <;>
      simp [proxy, hkey2, hsel, hup]
  · rw [containsSub, stripApiKey]
    cases hf : findSubstrPos ("?api-key=".toList) (p.getD "/").toList with
    | none => simpa using hf
    | some pos =>
      have : findSubstrPos ("?api-key=".toList) (((p.getD "/").toList).take pos) = none :=
        findSubstrPos_take_eq_none _ (by decide) _ pos hf
      simpa using congrArg Option.isSome this

/-- Witness for the amended C6 on `sampleState` with the api-key as the first
query parameter. -/
theorem apikey_strip_amended_witness :
    (proxy sampleState (some "k") none (some "/?api-key=k") 0
        (fun _ => .response 200 "ok")).sentUpstream =
      some (buildUri "http://a.test" (stripApiKey ((some "/?api-key=k").getD "/"))) ∧
    containsSub "?api-key=" (stripApiKey ((some "/?api-key=k").getD "/")) = false :=
  apikey_strip_amended sampleState "k" none (some "/?api-key=k") 0
    (fun _ => .response 200 "ok") "a" "http://a.test" (by decide) (by decide)

theorem totalWeight_cons (b : Backend) (t : List Backend) :
    totalWeight (b :: t) = b.weight + totalWeight t := by
  simp [totalWeight]

theorem prefixWeight_zero (H : List Backend) : prefixWeight H 0 = 0 := by
  simp [prefixWeight, totalWeight]

theorem prefixWeight_cons_succ (b : Backend) (t : List Backend) (i : Nat) :
    prefixWeight (b :: t) (i + 1) = b.weight + prefixWeight t i := by
  simp [prefixWeight, List.take_succ_cons, totalWeight_cons]

theorem weightedPick_char (H : List Backend) (r : Nat) (hr : r < totalWeight H) :
    ∃ i bi, H.get? i = some bi ∧
      weightedPick H r = some bi ∧
      prefixWeight H i ≤ r ∧
      r < prefixWeight H i + bi.weight ∧
      ∀ j bj, H.get? j = some bj → prefixWeight H j ≤ r →
        r < prefixWeight H j + bj.weight → j = i := by
  induction H generalizing r with
  | nil => simp [totalWeight] at hr
  | cons b t ih =>
    by_cases hlt : r < b.weight
    · refine ⟨0, b, rfl, by simp [weightedPick, hlt], by simp [prefixWeight_zero],
        by simpa [prefixWeight_zero] using hlt, ?_⟩
      intro j bj hbj h1 h2
      cases j with
      | zero => rfl
      | succ j =>
        rw [prefixWeight_cons_succ] at h1
        omega
    · have hr2 : r - b.weight < totalWeight t := by
        rw [totalWeight_cons] at hr
        omega
      obtain ⟨i, bi, hget, hpick, h1, h2, huniq⟩ := ih (r - b.weight) hr2
      refine ⟨i + 1, bi, by simpa using hget, ?_, ?_, ?_, ?_⟩
      · rw [weightedPick, if_neg hlt]
        exact hpick
      · rw [prefixWeight_cons_succ]
        omega
      · rw [prefixWeight_cons_succ]
        omega
      · intro j bj hbj hj1 hj2
        cases j with
        | zero =>
          rw [prefixWeight_zero] at hj2
          rw [List.get?_cons_zero, Option.some_inj] at hbj
          subst hbj
          omega
        | succ j =>
          rw [List.get?_cons_succ] at hbj
          rw [prefixWeight_cons_succ] at hj1 hj2
          have := huniq j bj hbj (by omega) (by omega)
          omega

/-- C9: for a non-empty healthy subset with positive weights and a draw
`r < W`, the total weight is positive (the uniform draw is well-defined) and
the subtractive walk returns, inside the loop, exactly the backend at the
unique index `i` with `prefixWeight i ≤ r < prefixWeight i + weight i`; in
particular the post-loop fallback is never reached. -/
theorem weighted_walk_correct (H : List Backend) (r : Nat)
    (hpos : ∀ b ∈ H, 0 < b.weight) (hr : r < totalWeight H) :
    0 < totalWeight H ∧
    ∃ i bi, H.get? i = some bi ∧
      weightedPick H r = some bi ∧
      prefixWeight H i ≤ r ∧
      r < prefixWeight H i + bi.weight ∧
      ∀ j bj, H.get? j = some bj → prefixWeight H j ≤ r →
        r < prefixWeight H j + bj.weight → j = i :=
  ⟨by omega, weightedPick_char H r hr⟩

/-- Witness for C9 on the two-backend list with weights 2 and 3 and draw 3:
the walk selects index 1. -/
theorem weighted_walk_correct_witness :
    0 < totalWeight [⟨"a", "http://a.test", 2⟩, ⟨"b", "http://b.test", 3⟩] ∧
    ∃ i bi, [(⟨"a", "http://a.test", 2⟩ : Backend), ⟨"b", "http://b.test", 3⟩].get? i = some bi ∧
      weightedPick [⟨"a", "http://a.test", 2⟩, ⟨"b", "http://b.test", 3⟩] 3 = some bi ∧
      prefixWeight [⟨"a", "http://a.test", 2⟩, ⟨"b", "http://b.test", 3⟩] i ≤ 3 ∧
      3 < prefixWeight [⟨"a", "http://a.test", 2⟩, ⟨"b", "http://b.test", 3⟩] i + bi.weight ∧
      ∀ j bj, [(⟨"a", "http://a.test", 2⟩ : Backend), ⟨"b", "http://b.test", 3⟩].get? j = some bj →
        prefixWeight [⟨"a", "http://a.test", 2⟩, ⟨"b", "http://b.test", 3⟩] j ≤ 3 →
        3 < prefixWeight [⟨"a", "http://a.test", 2⟩, ⟨"b", "http://b.test", 3⟩] j + bj.weight →
        j = 1 := by
  have h := weighted_walk_correct [⟨"a", "http://a.test", 2⟩, ⟨"b", "http://b.test", 3⟩] 3
    (by decide) (by decide)
  obtain ⟨hw, i, bi, hget, hpick, h1, h2, huniq⟩ := h
  have hi : i = 1 := by
    have h3 := huniq 1 ⟨"b", "http://b.test", 3⟩ (by decide) (by decide) (by decide)
    omega
  subst hi
  exact ⟨hw, 1, bi, hget, hpick, h1, h2, fun j bj a b c => huniq j bj a b c⟩
